import Mathlib

/-!
Verification of the cloud-tasks-emulator core (pkg/cloud_task_emulator/emulator.go)
against its natural-language specification.

The Go `Server` (the spec's Registry) is embedded shallowly: its two maps
`qs : map[string]*Queue` and `ts : map[string]*Task` become association lists
whose values are `Option`s — an entry `(n, none)` is a tombstone (a nil pointer
stored under key `n`), an absent key means the name was never used.  Go
functions that can return a gRPC error or panic at runtime (nil dereference,
slice bounds) return a `GoResult`.

Parts of the repository referenced by emulator.go but whose source files are
not available (queue.go / task.go: `Queue.NewTask`, `Task.Delete`, `Task.Run`,
`Queue.Pause/Resume/Purge/HardReset`, the retry policy) are modelled from the
spec; each such definition carries a doc comment saying so.
-/

namespace CTE

/-- gRPC status codes used by the emulator (emulator.go). -/
inductive ErrCode where
  | notFound
  | alreadyExists
  | failedPrecondition
  | invalidArgument
  | unimplemented
deriving DecidableEq

/-- Outcome of a Go handler: a normal return, a gRPC error, or a runtime
panic (nil-pointer dereference, slice bounds out of range).  A `crash` is a
Go panic, not a returned error. -/
inductive GoResult (α : Type) where
  | ok : α → GoResult α
  | err : ErrCode → GoResult α
  | crash : GoResult α
deriving DecidableEq

/-- True iff the result is a returned gRPC error (a Go panic is not). -/
def GoResult.isErr {α : Type} : GoResult α → Bool
  | .err _ => true
  | _ => false

/-- True iff the result is a normal return. -/
def GoResult.isOk {α : Type} : GoResult α → Bool
  | .ok _ => true
  | _ => false

/-- The observable fields of a task protobuf message that the claims need:
its resource name and the dispatch-attempt counter. -/
structure TaskState where
  name : String
  dispatchCount : Nat
deriving DecidableEq

/-- A live Task object (value part; the scheduler is modelled separately). -/
structure Task where
  state : TaskState
deriving DecidableEq

/-- Queue run-state (spec §3: RUNNING / PAUSED / DELETED). -/
inductive QState where
  | running
  | paused
  | deleted
deriving DecidableEq

/-- The observable fields of a queue protobuf message. -/
structure QueueState where
  name : String
  qstate : QState
deriving DecidableEq

/-- A live Queue: its state message and its own task map
(`Queue.ts`, used by ListTasks; nil entries are skipped there). -/
structure Queue where
  state : QueueState
  ts : List (String × Option Task)
deriving DecidableEq

/-- The emulator Server (the spec's Registry): queue map, task map and the
`HardResetOnPurgeQueue` option.  Entry `(n, none)` models a nil value stored
under key `n` (a tombstone); an absent key models `ok == false`. -/
structure Server where
  qs : List (String × Option Queue)
  ts : List (String × Option Task)
  hardResetOnPurge : Bool
deriving DecidableEq

/-- Go map lookup `v, ok := m[k]`: `none` = key absent, `some v` = present. -/
def lookupMap {α : Type} : List (String × α) → String → Option α
  | [], _ => none
  | (k, v) :: rest, n => if k = n then some v else lookupMap rest n

/-- Go map assignment `m[k] = v` (replaces an existing entry). -/
def insertMap {α : Type} : List (String × α) → String → α → List (String × α)
  | [], n, v => [(n, v)]
  | (k, w) :: rest, n, v => if k = n then (n, v) :: rest else (k, w) :: insertMap rest n v

/-- Go `delete(m, k)`. -/
def eraseMap {α : Type} : List (String × α) → String → List (String × α)
  | [], _ => []
  | (k, w) :: rest, n => if k = n then eraseMap rest n else (k, w) :: eraseMap rest n

theorem lookupMap_insertMap_self {α : Type} (m : List (String × α)) (n : String) (v : α) :
    lookupMap (insertMap m n v) n = some v := by
  induction m with
  | nil => simp [insertMap, lookupMap]
  | cons p rest ih =>
    obtain ⟨k, w⟩ := p
    by_cases h : k = n
    · simp [insertMap, lookupMap, h]
    · simp [insertMap, lookupMap, h, ih]

theorem lookupMap_insertMap_ne {α : Type} (m : List (String × α)) (n n' : String) (v : α)
    (h : n ≠ n') : lookupMap (insertMap m n v) n' = lookupMap m n' := by
  induction m with
  | nil => simp [insertMap, lookupMap, h]
  | cons p rest ih =>
    obtain ⟨k, w⟩ := p
    by_cases hk : k = n
    · subst hk
      simp [insertMap, lookupMap, h]
    · simp only [insertMap, if_neg hk]
      by_cases hk' : k = n'
      · simp [lookupMap, hk']
      · simp [lookupMap, hk', ih]

theorem lookupMap_eraseMap_self {α : Type} (m : List (String × α)) (n : String) :
    lookupMap (eraseMap m n) n = none := by
  induction m with
  | nil => simp [eraseMap, lookupMap]
  | cons p rest ih =>
    obtain ⟨k, w⟩ := p
    by_cases h : k = n
    · simp [eraseMap, h, ih]
    · simp [eraseMap, h, lookupMap, ih]

/-- The character class `[A-Za-z0-9-]` used by the queue/parent name patterns. -/
def isIdChar (c : Char) : Bool := c.isAlpha || c.isDigit || c = '-'

/-- The character class `[A-Za-z0-9_-]` of the task-id segment (spec §4.4). -/
def isTaskIdChar (c : Char) : Bool := isIdChar c || c = '_'

/-- Consume the literal `lit` from the front of `cs`; `some rest` on success. -/
def chompLit : List Char → List Char → Option (List Char)
  | [], cs => some cs
  | _ :: _, [] => none
  | l :: ls, c :: cs => if c = l then chompLit ls cs else none

/-- Consume a non-empty run of characters satisfying `p` (the regex `X+` for a
character class `X`).  Because none of the classes used here contains `'/'`
and every following literal starts with `'/'` (or is the end of the pattern),
the maximal-munch run is the only run any regex backtracking could accept, so
this deterministic matcher is equivalent to Go's regexp on these patterns. -/
def chompRun (p : Char → Bool) (cs : List Char) : Option (List Char) :=
  match cs.span p with
  | (run, rest) => if run.isEmpty then none else some rest

/-- Match `projects/[A-Za-z0-9-]+/locations/[A-Za-z0-9-]+/queues/[A-Za-z0-9-]+`
starting at the head of `cs`; returns the unconsumed tail on success. -/
def chompQueuePat (cs : List Char) : Option (List Char) :=
  (chompLit "projects/".data cs).bind (fun r1 =>
    (chompRun isIdChar r1).bind (fun r2 =>
      (chompLit "/locations/".data r2).bind (fun r3 =>
        (chompRun isIdChar r3).bind (fun r4 =>
          (chompLit "/queues/".data r4).bind (fun r5 =>
            chompRun isIdChar r5)))))

/-- Match `projects/[A-Za-z0-9-]+/locations/[A-Za-z0-9-]+` at the head of `cs`. -/
def chompParentPat (cs : List Char) : Option (List Char) :=
  (chompLit "projects/".data cs).bind (fun r1 =>
    (chompRun isIdChar r1).bind (fun r2 =>
      (chompLit "/locations/".data r2).bind (fun r3 =>
        chompRun isIdChar r3)))

/-- Match the queue pattern followed by `/tasks/[A-Za-z0-9_-]+`. -/
def chompTaskPat (cs : List Char) : Option (List Char) :=
  (chompQueuePat cs).bind (fun r1 =>
    (chompLit "/tasks/".data r1).bind (fun r2 =>
      chompRun isTaskIdChar r2))

/-- Go's `regexp.MatchString(pat, s)` is UNANCHORED: it succeeds if the pattern
matches at any position of `s`.  A match exists iff the pattern matches at the
head of some suffix of `s`. -/
def matchAnywhere (chomp : List Char → Option (List Char)) (s : String) : Bool :=
  s.data.tails.any (fun t => (chomp t).isSome)

/-- `regexp.MatchString("projects/[A-Za-z0-9-]+/locations/[A-Za-z0-9-]+/queues/[A-Za-z0-9-]+", name)`
as called by `CreateQueue` (emulator.go:123). -/
def queueNameMatched (s : String) : Bool := matchAnywhere chompQueuePat s

/-- `regexp.MatchString("projects/[A-Za-z0-9-]+/locations/[A-Za-z0-9-]+", parent)`
as called by `CreateQueue` (emulator.go:128). -/
def parentMatched (s : String) : Bool := matchAnywhere chompParentPat s

/-- ANCHORED queue-name regex — this definition follows the SPEC's words
(`^projects/[A-Za-z0-9-]+/locations/[A-Za-z0-9-]+/queues/[A-Za-z0-9-]+$`,
spec §4.4), for comparison with the code's unanchored `queueNameMatched`. -/
def queueNameAnchored (s : String) : Bool := chompQueuePat s.data == some []

/-- Modelled from the spec: `isValidTaskName` is called by `CreateTask`
(emulator.go:312) but defined in a source file that is not available; spec
§4.4 says a supplied task name "must match
`^projects/[A-Za-z0-9-]+/locations/[A-Za-z0-9-]+/queues/[A-Za-z0-9-]+/tasks/[A-Za-z0-9_-]+$`". -/
def isValidTaskName (s : String) : Bool := chompTaskPat s.data == some []

/-- `strings.HasPrefix(name, queueName + "/tasks/")` (emulator.go:315). -/
def startsWithTaskDir (queueName name : String) : Bool :=
  (chompLit (queueName ++ "/tasks/").data name.data).isSome

/-- `NewServer()` (emulator.go:22): empty maps, `HardResetOnPurgeQueue: false`. -/
def NewServer : Server := { qs := [], ts := [], hardResetOnPurge := false }

/-- `Server.setQueue` (emulator.go:46). -/
def setQueue (s : Server) (n : String) (q : Option Queue) : Server :=
  { s with qs := insertMap s.qs n q }

/-- `Server.fetchQueue` (emulator.go:52): `none` = absent, `some none` = nil
entry (tombstone), `some (some q)` = live queue. -/
def fetchQueue (s : Server) (n : String) : Option (Option Queue) := lookupMap s.qs n

/-- `Server.removeQueue` (emulator.go:59): stores nil under the key. -/
def removeQueue (s : Server) (n : String) : Server := setQueue s n none

/-- `Server.setTask` (emulator.go:63). -/
def setTask (s : Server) (n : String) (t : Option Task) : Server :=
  { s with ts := insertMap s.ts n t }

/-- `Server.fetchTask` (emulator.go:69). -/
def fetchTask (s : Server) (n : String) : Option (Option Task) := lookupMap s.ts n

/-- `Server.removeTask` (emulator.go:76): stores nil under the key — the
tombstone.  This is the removal callback a Queue invokes whenever a task
reaches its terminal state (successful dispatch, retry exhaustion, DeleteTask,
or purge — spec §4.3). -/
def removeTask (s : Server) (n : String) : Server := setTask s n none

/-- `Server.hardDeleteTask` (emulator.go:80): `delete(s.ts, taskName)` —
actually releases the name. -/
def hardDeleteTask (s : Server) (n : String) : Server :=
  { s with ts := eraseMap s.ts n }

/-- `GetQueue` (emulator.go:107): absent and tombstoned are both NotFound. -/
def GetQueue (s : Server) (n : String) : GoResult QueueState :=
  match fetchQueue s n with
  | some (some q) => .ok q.state
  | _ => .err .notFound

/-- `CreateQueue` (emulator.go:119): validates name and parent with UNANCHORED
`regexp.MatchString`, then distinguishes live (AlreadyExists) from tombstoned
(FailedPrecondition) from absent (install a fresh RUNNING queue).  The deep
copy of the request message becomes the new queue's state. -/
def CreateQueue (s : Server) (parent : String) (name : String) : GoResult (QueueState × Server) :=
  if ¬ queueNameMatched name then .err .invalidArgument
  else if ¬ parentMatched parent then .err .invalidArgument
  else
    match fetchQueue s name with
    | some (some _) => .err .alreadyExists
    | some none => .err .failedPrecondition
    | none =>
      let qst : QueueState := { name := name, qstate := QState.running }
      let q : Queue := { state := qst, ts := [] }
      .ok (qst, setQueue s name (some q))

/-- `PauseQueue` (emulator.go:192): `queue, _ := s.fetchQueue(...)` discards
the ok flag and calls `queue.Pause()` unconditionally — on an absent or
tombstoned name `queue` is nil and the call panics.  The live-queue effect
(RUNNING → PAUSED) is modelled from the spec (§4.3 Pause/Resume flip the
queue state; Queue.Pause is in a source file that is not available). -/
def PauseQueue (s : Server) (n : String) : GoResult (QueueState × Server) :=
  match fetchQueue s n with
  | some (some q) =>
    let q' : Queue := { q with state := { q.state with qstate := QState.paused } }
    .ok (q'.state, setQueue s n (some q'))
  | _ => .crash

/-- `ResumeQueue` (emulator.go:201): same shape as PauseQueue. -/
def ResumeQueue (s : Server) (n : String) : GoResult (QueueState × Server) :=
  match fetchQueue s n with
  | some (some q) =>
    let q' : Queue := { q with state := { q.state with qstate := QState.running } }
    .ok (q'.state, setQueue s n (some q'))
  | _ => .crash

/-- `PurgeQueue` (emulator.go:177): also discards the ok flag, so an absent or
tombstoned name panics on the nil queue.  With the default options the purge
is spun off asynchronously (`queue.Purge()`) and the handler returns at once,
so the synchronous result leaves the registry unchanged; with
`HardResetOnPurgeQueue` the queue's tasks are deleted synchronously and their
names hard-deleted from the registry (`queue.HardReset(s)`, modelled from
spec §4.3: it "removes tombstones from the Registry so names become
immediately reusable"). -/
def PurgeQueue (s : Server) (n : String) : GoResult (QueueState × Server) :=
  match fetchQueue s n with
  | some (some q) =>
    if s.hardResetOnPurge then
      let s' := (q.ts.map Prod.fst).foldl (fun acc m => hardDeleteTask acc m) s
      let q' : Queue := { q with ts := [] }
      .ok (q'.state, setQueue s' n (some q'))
    else
      .ok (q.state, s)
  | _ => .crash

/-- `GetTask` (emulator.go:286): absent → NotFound; nil entry (tombstone) →
FailedPrecondition; live → the task's state object. -/
def GetTask (s : Server) (n : String) : GoResult TaskState :=
  match fetchTask s n with
  | none => .err .notFound
  | some none => .err .failedPrecondition
  | some (some t) => .ok t.state

/-- `Queue.NewTask` (called at emulator.go:328; its source file is not
available) — modelled from the spec (§4.3): if no name is supplied, generate
`<queue>/tasks/<id>` (the random 19-digit id is passed in as `gen` so that
the model stays deterministic), initialize the attempt counters to zero, and
install the task in the queue's own task set. -/
def newTaskInQueue (q : Queue) (reqName : String) (gen : String) : Queue × Task :=
  let name := if reqName = "" then q.state.name ++ "/tasks/" ++ gen else reqName
  let t : Task := { state := { name := name, dispatchCount := 0 } }
  ({ q with ts := insertMap q.ts name (some t) }, t)

/-- `CreateTask` (emulator.go:299): queue must exist (absent → NotFound, nil →
FailedPrecondition); the name checks — validity, queue prefix, uniqueness
against live entries AND tombstones (`exists` is true for a nil entry) — run
only when the request supplies a name; then the queue materializes the task
and the server installs it with an unconditional map assignment
(`installTask` is that shared tail: `queue.NewTask` + `s.setTask`,
emulator.go:328-332). -/
def installTask (s : Server) (parent : String) (q : Queue) (reqName gen : String) :
    GoResult (TaskState × Server) :=
  let p := newTaskInQueue q reqName gen
  .ok (p.2.state, setTask (setQueue s parent (some p.1)) p.2.state.name (some p.2))

/-- `CreateTask` proper (emulator.go:299); see the comment on `installTask`. -/
def CreateTask (s : Server) (parent : String) (reqName : String) (gen : String) :
    GoResult (TaskState × Server) :=
  match fetchQueue s parent with
  | none => .err .notFound
  | some none => .err .failedPrecondition
  | some (some q) =>
    if reqName = "" then installTask s parent q reqName gen
    else if isValidTaskName reqName = false then .err .invalidArgument
    else if startsWithTaskDir parent reqName = false then .err .invalidArgument
    else if (fetchTask s reqName).isSome = true then .err .alreadyExists
    else installTask s parent q reqName gen

/-- `DeleteTask` (emulator.go:336): absent → NotFound; tombstoned → NotFound
(same code, different message); live → `task.Delete()`.  `Task.Delete` is in
a source file that is not available; modelled from the spec (§4.2): it marks
the task terminal and invokes the queue's removal callback exactly once, and
that callback is the closure of emulator.go:145 — `s.removeTask(name)` — plus
removal from the queue's task set (spec §4.3). -/
def DeleteTask (s : Server) (n : String) : GoResult Server :=
  match fetchTask s n with
  | none => .err .notFound
  | some none => .err .notFound
  | some (some t) =>
    let s' := removeTask s n
    let s'' : Server :=
      { s' with
        qs := s'.qs.map (fun p =>
          match p with
          | (k, some q) => (k, some { q with ts := eraseMap q.ts t.state.name })
          | (k, none) => (k, none)) }
    .ok s''

/-- `RunTask` (emulator.go:352): absent → NotFound; tombstoned → NotFound;
live → `task.Run()` returns the task's state.  `Task.Run` is in a source file
that is not available; modelled from the spec (§4.2): it forces an immediate
dispatch and returns the task state; the dispatch itself is asynchronous, so
the synchronous result leaves the registry unchanged. -/
def RunTask (s : Server) (n : String) : GoResult (TaskState × Server) :=
  match fetchTask s n with
  | none => .err .notFound
  | some none => .err .notFound
  | some (some t) => .ok (t.state, s)

/-- The decimal digit character for `d < 10`. -/
def digitChar (d : Nat) : Char := Char.ofNat (48 + d)

/-- The decimal digits of `n`, most significant first (`strconv.Itoa` for a
non-negative value; page offsets are never negative on the non-panicking
paths of `ListTasks`). -/
def natChars (n : Nat) : List Char :=
  if h : n < 10 then [digitChar n]
  else natChars (n / 10) ++ [digitChar (n % 10)]
termination_by n
decreasing_by exact Nat.div_lt_self (by omega) (by omega)

/-- `strconv.Itoa` for a natural number. -/
def itoa (n : Nat) : String := String.mk (natChars n)

/-- Accumulating decimal evaluator: fails on the first non-digit. -/
def valAux : Nat → List Char → Option Nat
  | a, [] => some a
  | a, c :: cs => if c.isDigit then valAux (a * 10 + (c.toNat - 48)) cs else none

/-- Value of a non-empty all-digit string. -/
def digitsVal (cs : List Char) : Option Nat :=
  if cs.isEmpty then none else valAux 0 cs

/-- Largest value of Go's 64-bit `int`; `strconv.Atoi` reports a range error
beyond it, which `ListTasks` surfaces as InvalidArgument. -/
def int64Max : Nat := 9223372036854775807

/-- `strconv.Atoi` (as used at emulator.go:248): optional single sign, then
decimal digits, nothing else; range-checked against 64-bit int. -/
def goAtoi (s : String) : Option Int :=
  match s.data with
  | [] => none
  | c :: cs =>
    if c = '+' then
      (digitsVal cs).bind (fun n => if n ≤ int64Max then some ((n : Int)) else none)
    else if c = '-' then
      (digitsVal cs).bind (fun n => if n ≤ int64Max + 1 then some (-(n : Int)) else none)
    else
      (digitsVal (c :: cs)).bind (fun n => if n ≤ int64Max then some ((n : Int)) else none)

theorem digitChar_isDigit : ∀ d, d < 10 → (digitChar d).isDigit = true := by decide

theorem digitChar_toNat : ∀ d, d < 10 → (digitChar d).toNat = 48 + d := by decide

theorem valAux_append (xs ys : List Char) : ∀ a,
    valAux a (xs ++ ys) = (valAux a xs).bind (fun b => valAux b ys) := by
  induction xs with
  | nil => intro a; simp [valAux]
  | cons c cs ih =>
    intro a
    by_cases h : c.isDigit
    · simp [valAux, h, ih]
    · simp [valAux, h]

theorem natChars_ne_nil (n : Nat) : natChars n ≠ [] := by
  rw [natChars]
  by_cases h : n < 10 <;> simp [h]

theorem natChars_all_digits (n : Nat) : ∀ c ∈ natChars n, c.isDigit = true := by
  induction n using Nat.strong_induction_on with
  | _ n ih =>
    rw [natChars]
    by_cases h : n < 10
    · simp only [h, dif_pos]
      intro c hc
      simp only [List.mem_singleton] at hc
      subst hc
      exact digitChar_isDigit n h
    · simp only [h, dif_neg, not_false_iff]
      intro c hc
      rcases List.mem_append.mp hc with h1 | h2
      · exact ih (n / 10) (Nat.div_lt_self (by omega) (by omega)) c h1
      · simp only [List.mem_singleton] at h2
        subst h2
        exact digitChar_isDigit (n % 10) (Nat.mod_lt n (by omega))

theorem valAux_natChars (n : Nat) : ∀ a,
    valAux a (natChars n) = some (a * 10 ^ (natChars n).length + n) := by
  induction n using Nat.strong_induction_on with
  | _ n ih =>
    intro a
    rw [natChars]
    by_cases h : n < 10
    · simp only [h, dif_pos]
      have hd := digitChar_isDigit n h
      have ht := digitChar_toNat n h
      simp [valAux, hd, ht]
    · simp only [h, dif_neg, not_false_iff]
      rw [valAux_append]
      have hlt : n / 10 < n := Nat.div_lt_self (by omega) (by omega)
      rw [ih (n / 10) hlt a]
      have hd := digitChar_isDigit (n % 10) (Nat.mod_lt n (by omega))
      have ht := digitChar_toNat (n % 10) (Nat.mod_lt n (by omega))
      simp only [Option.some_bind, valAux, hd, if_pos, ht, List.length_append,
        List.length_singleton]
      have hr : 48 + n % 10 - 48 = n % 10 := by omega
      rw [hr, pow_succ]
      congr 1
      have h2 : 10 * (n / 10) + n % 10 = n := Nat.div_add_mod n 10
      calc (a * 10 ^ (natChars (n / 10)).length + n / 10) * 10 + n % 10
          = a * (10 ^ (natChars (n / 10)).length * 10) + (10 * (n / 10) + n % 10) := by ring
        _ = a * (10 ^ (natChars (n / 10)).length * 10) + n := by rw [h2]

theorem digitsVal_natChars (n : Nat) : digitsVal (natChars n) = some n := by
  have hne := natChars_ne_nil n
  have hv := valAux_natChars n 0
  simp only [digitsVal, List.isEmpty_iff, hne, if_neg, not_false_iff]
  rw [hv]
  simp

/-- Round trip: a token rendered by the code is parsed back to the same
offset (within Go's int range). -/
theorem goAtoi_itoa (n : Nat) (hn : n ≤ int64Max) : goAtoi (itoa n) = some ((n : Int)) := by
  have hne := natChars_ne_nil n
  cases hnc : natChars n with
  | nil => exact absurd hnc hne
  | cons c cs =>
    have hcd : c.isDigit = true := by
      apply natChars_all_digits n
      rw [hnc]
      exact List.mem_cons_self c cs
    have hplus : c ≠ '+' := by
      intro he
      rw [he] at hcd
      simp at hcd
    have hminus : c ≠ '-' := by
      intro he
      rw [he] at hcd
      simp at hcd
    have hdata : (itoa n).data = c :: cs := by
      simp only [itoa]
      exact hnc
    unfold goAtoi
    rw [hdata]
    simp only [if_neg hplus, if_neg hminus]
    rw [← hnc, digitsVal_natChars]
    simp [hn]

theorem itoa_ne_empty (n : Nat) : itoa n ≠ "" := by
  intro he
  have : (itoa n).data = ("" : String).data := by rw [he]
  simp only [itoa] at this
  exact natChars_ne_nil n this

/-- Byte-lexicographic "less or equal" on strings as character lists —
`strings.Compare(a, b) <= 0`.  (UTF-8 byte order and code-point order agree.) -/
def charListLe : List Char → List Char → Bool
  | [], _ => true
  | _ :: _, [] => false
  | a :: as, b :: bs =>
    if a.toNat < b.toNat then true
    else if b.toNat < a.toNat then false
    else charListLe as bs

theorem charListLe_total (xs ys : List Char) :
    charListLe xs ys = true ∨ charListLe ys xs = true := by
  induction xs generalizing ys with
  | nil => left; rfl
  | cons a as ih =>
    cases ys with
    | nil => right; rfl
    | cons b bs =>
      by_cases h1 : a.toNat < b.toNat
      · left; simp [charListLe, h1]
      · by_cases h2 : b.toNat < a.toNat
        · right; simp [charListLe, h2]
        · rcases ih bs with h | h
          · left; simp [charListLe, h1, h2, h]
          · right; simp [charListLe, h1, h2, h]

theorem charListLe_trans (xs ys zs : List Char)
    (h1 : charListLe xs ys = true) (h2 : charListLe ys zs = true) :
    charListLe xs zs = true := by
  induction xs generalizing ys zs with
  | nil => rfl
  | cons a as ih =>
    cases ys with
    | nil => simp [charListLe] at h1
    | cons b bs =>
      cases zs with
      | nil => simp [charListLe] at h2
      | cons c cs =>
        simp only [charListLe] at h1 h2 ⊢
        by_cases hab : a.toNat < b.toNat
        · by_cases hbc : b.toNat < c.toNat
          · have : a.toNat < c.toNat := Nat.lt_trans hab hbc
            simp [this]
          · by_cases hcb : c.toNat < b.toNat
            · simp [hbc, hcb] at h2
            · have hbe : b.toNat = c.toNat := by omega
              have : a.toNat < c.toNat := by omega
              simp [this]
        · by_cases hba : b.toNat < a.toNat
          · simp [hab, hba] at h1
          · have hae : a.toNat = b.toNat := by omega
            simp only [if_neg hab, if_neg hba] at h1
            by_cases hbc : b.toNat < c.toNat
            · have : a.toNat < c.toNat := by omega
              simp [this]
            · by_cases hcb : c.toNat < b.toNat
              · simp [hbc, hcb] at h2
              · have hac : ¬ a.toNat < c.toNat := by omega
                have hca : ¬ c.toNat < a.toNat := by omega
                simp only [if_neg hbc, if_neg hcb] at h2
                simp [hac, hca, ih bs cs h1 h2]

/-- The comparison `ListTasks` sorts by (emulator.go:242):
`strings.Compare(l[i].state.Name, l[j].state.Name)`, as a preorder on tasks. -/
def taskNameLe (a b : Task) : Prop :=
  charListLe a.state.name.data b.state.name.data = true

instance : DecidableRel taskNameLe := fun a b =>
  inferInstanceAs (Decidable (_ = true))

instance : IsTotal Task taskNameLe :=
  ⟨fun a b => charListLe_total a.state.name.data b.state.name.data⟩

instance : IsTrans Task taskNameLe :=
  ⟨fun a b c => charListLe_trans a.state.name.data b.state.name.data c.state.name.data⟩

/-- The live tasks of a queue, in map order: `ListTasks` collects the non-nil
entries of `queue.ts` (emulator.go:235-240). -/
def liveTasks (q : Queue) : List Task := q.ts.filterMap Prod.snd

/-- The snapshot `ListTasks` pages over: live tasks stable-sorted by name
ascending (emulator.go:242), projected to their state messages. -/
def sortedStates (q : Queue) : List TaskState :=
  (List.insertionSort taskNameLe (liveTasks q)).map Task.state

/-- One page: Go takes `l = l[start:]` first; if more than `pageSize` elements
remain it truncates and emits the numeric next offset, else the next token is
empty (emulator.go:268-272). -/
def pageOut (rest : List TaskState) (start psN : Nat) : List TaskState × String :=
  if psN < rest.length then (rest.take psN, itoa (start + psN)) else (rest, "")

/-- `ListTasks` (emulator.go:225): NotFound for an absent or tombstoned queue;
`PageToken` is parsed with `strconv.Atoi` (parse failure → InvalidArgument,
empty token → offset 0); then Go evaluates `l = l[start:]`, which PANICS when
the offset is negative or beyond the list length; only then is `PageSize`
validated (`< 0` or `> 1000` → InvalidArgument, `0` → default 1000). -/
def ListTasks (s : Server) (parent : String) (pageToken : String) (pageSize : Int) :
    GoResult (List TaskState × String) :=
  match fetchQueue s parent with
  | none => .err .notFound
  | some none => .err .notFound
  | some (some q) =>
    let l := sortedStates q
    let startRes : GoResult Int :=
      if pageToken = "" then .ok 0
      else
        match goAtoi pageToken with
        | none => .err .invalidArgument
        | some k => .ok k
    match startRes with
    | .err e => .err e
    | .crash => .crash
    | .ok start =>
      if 0 ≤ start ∧ start.toNat ≤ l.length then
        let rest := l.drop start.toNat
        if pageSize < 0 then .err .invalidArgument
        else if pageSize = 0 then .ok (pageOut rest start.toNat 1000)
        else if 1000 < pageSize then .err .invalidArgument
        else .ok (pageOut rest start.toNat pageSize.toNat)
      else .crash

/-- Following next-page tokens: call `ListTasks`, and while the next token is
non-empty call again with it, concatenating the returned pages.  `fuel` bounds
the recursion; `none` means the fuel ran out or a call failed. -/
def drainPages (s : Server) (parent : String) (pageSize : Int) :
    Nat → String → Option (List TaskState)
  | 0, _ => none
  | fuel + 1, tok =>
    match ListTasks s parent tok pageSize with
    | .ok (page, next) =>
      if next = "" then some page
      else (drainPages s parent pageSize fuel next).map (fun rest => page ++ rest)
    | _ => none

/-- Pointer-level model of the task registry, used to settle aliasing: task
state messages live in a heap addressed by `Nat` references, and the server's
task map stores REFERENCES (`*tasks.Task` holds `state *tasks.Task` message
pointers in Go).  `GetTask`'s `return task.state` (emulator.go:295) returns
the stored pointer itself, with no `proto.Clone`. -/
structure HServer where
  heap : List TaskState
  hts : List (String × Option Nat)
deriving DecidableEq

/-- Dereference a task-state pointer. -/
def heapRead (h : List TaskState) (r : Nat) : TaskState :=
  h.getD r { name := "", dispatchCount := 0 }

/-- `GetTask` at pointer level (emulator.go:286): the ok branch is
`return task.state, nil` — the internal pointer, not a copy. -/
def getTaskPtr (s : HServer) (n : String) : GoResult Nat :=
  match lookupMap s.hts n with
  | none => .err .notFound
  | some none => .err .failedPrecondition
  | some (some r) => .ok r

/-- Modelled from the spec: the dispatcher's counter update
(`task.state.DispatchCount++` on each attempt; task.go is not available, spec
§4.2 step 3/4 and §9 "attempt counters will mutate") — an in-place mutation
of the state object at reference `r`. -/
def bumpDispatch (s : HServer) (r : Nat) : HServer :=
  { s with
    heap := s.heap.set r
      { heapRead s.heap r with dispatchCount := (heapRead s.heap r).dispatchCount + 1 } }

/-- Modelled from the spec (§4.1): default retry policy minimum backoff, in
milliseconds. -/
def minBackoffMs : Nat := 100

/-- Modelled from the spec (§4.1): default maximum backoff (3600 s), in
milliseconds. -/
def maxBackoffMs : Nat := 3600000

/-- Modelled from the spec (§4.1): default maximum number of doublings. -/
def maxDoublings : Nat := 16

/-- Modelled from the spec (§4.1): default maximum number of attempts. -/
def defaultMaxAttempts : Nat := 100

/-- clamp(x, lo, hi) on naturals. -/
def clampNat (x lo hi : Nat) : Nat := max lo (min x hi)

/-- Modelled from the spec (§4.1, task.go is not available): the backoff the
policy computes at attempt index `n` — the delay between the failed dispatch
with zero-based index `n` and the next one:
`clamp(minBackoff * 2^min(n, maxDoublings), minBackoff, maxBackoff)`. -/
def retryDelayMs (n : Nat) : Nat :=
  clampNat (minBackoffMs * 2 ^ (min n maxDoublings)) minBackoffMs maxBackoffMs

/-- Time offset (ms after the scheduled time) of the zero-based `k`-th
dispatch of a task whose target always fails: the first dispatch fires with
delay 0, and each later one follows the previous after `retryDelayMs`. -/
def dispatchTimeMs : Nat → Nat
  | 0 => 0
  | k + 1 => dispatchTimeMs k + retryDelayMs k

/-- Queue name used by the concrete witness scenarios. -/
def qn1 : String := "projects/p/locations/l/queues/q"

/-- A client-supplied task name inside `qn1`. -/
def tn1 : String := "projects/p/locations/l/queues/q/tasks/t"

/-- A task name that was used and then removed (tombstoned) in `wServer`. -/
def tn2 : String := "projects/p/locations/l/queues/q/tasks/gone"

/-- The live task of the witness scenarios. -/
def wTask : Task := { state := { name := tn1, dispatchCount := 0 } }

/-- The live queue of the witness scenarios. -/
def wQueue : Queue :=
  { state := { name := qn1, qstate := QState.running }, ts := [(tn1, some wTask)] }

/-- A reachable server snapshot: one live queue `qn1` holding the live task
`tn1`, and a tombstone left behind by a removed task `tn2`. -/
def wServer : Server :=
  { qs := [(qn1, some wQueue)]
    ts := [(tn1, some wTask), (tn2, none)]
    hardResetOnPurge := false }

/-- C9: under the default retry policy (minBackoff 100 ms, maxBackoff 3600 s,
maxDoublings 16, maxAttempts 100) the backoff computed at attempt index n is
clamp(minBackoff * 2^min(n, maxDoublings), minBackoff, maxBackoff), the first
dispatch fires with delay 0, and a target that always fails sees its first
four dispatches at offsets 0, 100, 300, 700 ms — separations 0, 100 ms,
200 ms, 400 ms — and every delay from attempt index 16 on is pinned at the
3600-second maximum. -/
theorem default_retry_schedule :
    (minBackoffMs, maxBackoffMs, maxDoublings, defaultMaxAttempts) = (100, 3600000, 16, 100) ∧
    (∀ n, retryDelayMs n =
      clampNat (minBackoffMs * 2 ^ (min n maxDoublings)) minBackoffMs maxBackoffMs) ∧
    dispatchTimeMs 0 = 0 ∧
    (dispatchTimeMs 1, dispatchTimeMs 2, dispatchTimeMs 3) = (100, 300, 700) ∧
    (dispatchTimeMs 1 - dispatchTimeMs 0, dispatchTimeMs 2 - dispatchTimeMs 1,
      dispatchTimeMs 3 - dispatchTimeMs 2) = (100, 200, 400) ∧
    (∀ n, retryDelayMs (n + 16) = maxBackoffMs) := by
  refine ⟨rfl, fun n => rfl, rfl, by decide, by decide, fun n => ?_⟩
  have h : min (n + 16) maxDoublings = 16 := by
    show min (n + 16) 16 = 16
    omega
  rw [retryDelayMs, h]
  decide

/-- C2: GetTask distinguishes never-existed (NotFound) from tombstoned
(FailedPrecondition); DeleteTask and RunTask return NotFound in both of those
cases; on a live name GetTask returns the task's state, DeleteTask succeeds,
and RunTask dispatches and returns the task's state. -/
theorem task_lookup_error_taxonomy (s : Server) (n : String) :
    (fetchTask s n = none →
      GetTask s n = .err .notFound ∧ DeleteTask s n = .err .notFound ∧
      RunTask s n = .err .notFound) ∧
    (fetchTask s n = some none →
      GetTask s n = .err .failedPrecondition ∧ DeleteTask s n = .err .notFound ∧
      RunTask s n = .err .notFound) ∧
    (∀ t, fetchTask s n = some (some t) →
      GetTask s n = .ok t.state ∧ (DeleteTask s n).isOk = true ∧
      RunTask s n = .ok (t.state, s)) := by
  refine ⟨fun h => ?_, fun h => ?_, fun t h => ?_⟩ <;>
    simp [GetTask, DeleteTask, RunTask, GoResult.isOk, h]

/-- C2 witness: the taxonomy evaluated on the concrete snapshot `wServer`
(absent name "nope", tombstoned name `tn2`, live name `tn1`). -/
theorem task_lookup_error_taxonomy_witness :
    GetTask wServer "nope" = .err .notFound ∧
    GetTask wServer tn2 = .err .failedPrecondition ∧
    RunTask wServer tn2 = .err .notFound ∧
    GetTask wServer tn1 = .ok wTask.state ∧
    (DeleteTask wServer tn1).isOk = true :=
  ⟨((task_lookup_error_taxonomy wServer "nope").1 (by decide)).1,
   ((task_lookup_error_taxonomy wServer tn2).2.1 (by decide)).1,
   ((task_lookup_error_taxonomy wServer tn2).2.1 (by decide)).2.2,
   ((task_lookup_error_taxonomy wServer tn1).2.2 wTask (by decide)).1,
   ((task_lookup_error_taxonomy wServer tn1).2.2 wTask (by decide)).2.1⟩

/-- C3 counterexample: deleting the live task `tn1` of `wServer` succeeds and
tombstones the name, so the subsequent GetTask returns FailedPrecondition
("the task no longer exists, though a task with this name existed recently"),
NOT NotFound as the claim states. -/
theorem deleteTask_then_getTask_counterexample :
    (DeleteTask wServer tn1).isOk = true ∧
    GetTask (removeTask wServer tn1) tn1 = .err .failedPrecondition ∧
    GetTask (removeTask wServer tn1) tn1 ≠ .err .notFound := by
  refine ⟨by decide, by decide, by decide⟩

/-- C3 amended: for every live task, DeleteTask succeeds, and the subsequent
GetTask on the same name returns FailedPrecondition (the name is tombstoned,
not released), not NotFound. -/
theorem deleteTask_then_getTask_failedPrecondition (s : Server) (n : String) (t : Task)
    (h : fetchTask s n = some (some t)) :
    ∃ s', DeleteTask s n = .ok s' ∧ GetTask s' n = .err .failedPrecondition := by
  simp only [DeleteTask, h]
  refine ⟨_, rfl, ?_⟩
  simp [GetTask, fetchTask, removeTask, setTask, lookupMap_insertMap_self]

/-- C3 amended witness: the amended law applied to the live task of `wServer`. -/
theorem deleteTask_then_getTask_failedPrecondition_witness :
    fetchTask wServer tn1 = some (some wTask) ∧
    ∃ s', DeleteTask wServer tn1 = .ok s' ∧ GetTask s' tn1 = .err .failedPrecondition :=
  ⟨by decide, deleteTask_then_getTask_failedPrecondition wServer tn1 wTask (by decide)⟩

/-- A server whose queue map holds only a tombstone (a deleted queue). -/
def tqServer : Server :=
  { qs := [("projects/p/locations/l/queues/dead", none)], ts := [], hardResetOnPurge := false }

/-- C6 counterexample: on a fresh server (queue never existed) and on a
tombstoned queue name, PauseQueue / ResumeQueue / PurgeQueue all dereference
the nil `*Queue` and panic — none of them returns an error. -/
theorem queue_ops_nil_counterexample :
    PauseQueue NewServer qn1 = .crash ∧ (PauseQueue NewServer qn1).isErr = false ∧
    ResumeQueue NewServer qn1 = .crash ∧ (ResumeQueue NewServer qn1).isErr = false ∧
    PurgeQueue NewServer qn1 = .crash ∧ (PurgeQueue NewServer qn1).isErr = false ∧
    PauseQueue tqServer "projects/p/locations/l/queues/dead" = .crash ∧
    ResumeQueue tqServer "projects/p/locations/l/queues/dead" = .crash ∧
    PurgeQueue tqServer "projects/p/locations/l/queues/dead" = .crash := by
  refine ⟨rfl, rfl, rfl, rfl, rfl, rfl, rfl, rfl, rfl⟩

/-- C6 amended: PurgeQueue, PauseQueue and ResumeQueue serve only live
queues; naming an absent or tombstoned queue makes the handler dereference a
nil `*Queue` and panic (`queue, _ := s.fetchQueue(...)` discards the ok
flag), rather than returning an error. -/
theorem queue_ops_require_live_queue (s : Server) (n : String) :
    (fetchQueue s n = none ∨ fetchQueue s n = some none →
      PauseQueue s n = .crash ∧ ResumeQueue s n = .crash ∧ PurgeQueue s n = .crash) ∧
    (∀ q, fetchQueue s n = some (some q) →
      (PauseQueue s n).isOk = true ∧ (ResumeQueue s n).isOk = true ∧
      (PurgeQueue s n).isOk = true) := by
  constructor
  · rintro (h | h) <;> simp [PauseQueue, ResumeQueue, PurgeQueue, h]
  · intro q h
    by_cases hr : s.hardResetOnPurge <;>
      simp [PauseQueue, ResumeQueue, PurgeQueue, GoResult.isOk, h, hr]

/-- C6 amended witness: the dichotomy evaluated at the absent name on a fresh
server and at the live queue of `wServer`. -/
theorem queue_ops_require_live_queue_witness :
    (PauseQueue NewServer qn1 = .crash ∧ ResumeQueue NewServer qn1 = .crash ∧
      PurgeQueue NewServer qn1 = .crash) ∧
    ((PauseQueue wServer qn1).isOk = true ∧ (ResumeQueue wServer qn1).isOk = true ∧
      (PurgeQueue wServer qn1).isOk = true) :=
  ⟨(queue_ops_require_live_queue NewServer qn1).1 (Or.inl (by decide)),
   (queue_ops_require_live_queue wServer qn1).2 wQueue (by decide)⟩

/-- C10: when the request's task name is empty, CreateTask never answers
AlreadyExists — the validity / queue-prefix / uniqueness checks are all inside
the `if in.Task.Name != ""` block — and the generated name is installed with
an unconditional map assignment, overwriting whatever entry (live or
tombstone) might sit under that name. -/
theorem createTask_generated_name (s : Server) (parent gen : String) :
    CreateTask s parent "" gen ≠ .err .alreadyExists ∧
    (∀ q, fetchQueue s parent = some (some q) →
      ∃ s', CreateTask s parent "" gen =
          .ok ({ name := q.state.name ++ "/tasks/" ++ gen, dispatchCount := 0 }, s') ∧
        fetchTask s' (q.state.name ++ "/tasks/" ++ gen) =
          some (some { state := { name := q.state.name ++ "/tasks/" ++ gen,
                                  dispatchCount := 0 } })) := by
  constructor
  · cases hq : fetchQueue s parent with
    | none => simp [CreateTask, hq]
    | some oq =>
      cases oq with
      | none => simp [CreateTask, hq]
      | some q => simp [CreateTask, hq, installTask]
  · intro q hq
    have hc : CreateTask s parent "" gen =
        .ok ({ name := q.state.name ++ "/tasks/" ++ gen, dispatchCount := 0 },
          setTask (setQueue s parent (some (newTaskInQueue q "" gen).1))
            (q.state.name ++ "/tasks/" ++ gen)
            (some { state := { name := q.state.name ++ "/tasks/" ++ gen,
                               dispatchCount := 0 } })) := by
      simp [CreateTask, hq, installTask, newTaskInQueue]
    exact ⟨_, hc, by simp [fetchTask, setTask, lookupMap_insertMap_self]⟩

/-- C10 witness: a generated id equal to the basename of the already-present
(live) task `tn1` of `wServer`: CreateTask still succeeds — no AlreadyExists —
and the entry under that name is overwritten with the fresh task. -/
theorem createTask_generated_name_witness :
    CreateTask wServer qn1 "" "t" ≠ .err .alreadyExists ∧
    fetchQueue wServer qn1 = some (some wQueue) ∧
    (∃ s', CreateTask wServer qn1 "" "t" =
        .ok ({ name := wQueue.state.name ++ "/tasks/" ++ "t", dispatchCount := 0 }, s') ∧
      fetchTask s' (wQueue.state.name ++ "/tasks/" ++ "t") =
        some (some { state := { name := wQueue.state.name ++ "/tasks/" ++ "t",
                                dispatchCount := 0 } })) :=
  ⟨(createTask_generated_name wServer qn1 "t").1, by decide,
   (createTask_generated_name wServer qn1 "t").2 wQueue (by decide)⟩

/-- C1: task-name reservation.  (a) While a supplied name is present in the
server's task map — live or tombstoned — a CreateTask for it that passes the
queue-existence and format checks fails with AlreadyExists.  (b) A successful
CreateTask leaves the accepted name present in the map.  (c) The removal
callback (run on successful completion, DeleteTask and purge) stores nil
under the key — a tombstone, the key stays present.  (d) DeleteTask leaves
the name tombstoned, never absent.  (e) Only the hard reset
(`hardDeleteTask`) actually releases the name. -/
theorem task_names_reserved_until_hard_reset (s : Server) (parent n gen : String) (q : Queue) :
    (fetchQueue s parent = some (some q) → n ≠ "" → isValidTaskName n = true →
      startsWithTaskDir parent n = true → (fetchTask s n).isSome = true →
      CreateTask s parent n gen = .err .alreadyExists) ∧
    (∀ st s', CreateTask s parent n gen = .ok (st, s') →
      fetchTask s' st.name = some (some { state := st })) ∧
    fetchTask (removeTask s n) n = some none ∧
    (∀ s', DeleteTask s n = .ok s' → fetchTask s' n = some none) ∧
    fetchTask (hardDeleteTask s n) n = none := by
  refine ⟨fun hq hn hv hp he => ?_, fun st s' hok => ?_, ?_, fun s' hok => ?_, ?_⟩
  · simp [CreateTask, hq, hn, hv, hp, he]
  · cases hq : fetchQueue s parent with
    | none => simp [CreateTask, hq] at hok
    | some oq =>
      cases oq with
      | none => simp [CreateTask, hq] at hok
      | some q' =>
        simp only [CreateTask, hq] at hok
        have hinst : ∀ rn, installTask s parent q' rn gen = .ok (st, s') →
            fetchTask s' st.name = some (some { state := st }) := by
          intro rn h
          simp only [installTask, GoResult.ok.injEq, Prod.mk.injEq] at h
          obtain ⟨hst, hs'⟩ := h
          subst hst
          subst hs'
          simp [fetchTask, setTask, lookupMap_insertMap_self]
        split at hok
        · exact hinst _ hok
        · split at hok
          · simp at hok
          · split at hok
            · simp at hok
            · split at hok
              · simp at hok
              · exact hinst _ hok
  · simp [fetchTask, removeTask, setTask, lookupMap_insertMap_self]
  · cases ht : fetchTask s n with
    | none => simp [DeleteTask, ht] at hok
    | some ot =>
      cases ot with
      | none => simp [DeleteTask, ht] at hok
      | some t =>
        simp only [DeleteTask, ht, GoResult.ok.injEq] at hok
        subst hok
        simp [fetchTask, removeTask, setTask, lookupMap_insertMap_self]
  · simp [fetchTask, hardDeleteTask, lookupMap_eraseMap_self]

/-- C1 witness: on `wServer`, re-creating the live name `tn1` and the
tombstoned (completed-and-removed) name `tn2` both fail with AlreadyExists;
tombstoning keeps the key present; hard delete releases it. -/
theorem task_names_reserved_until_hard_reset_witness :
    CreateTask wServer qn1 tn1 "g" = .err .alreadyExists ∧
    CreateTask wServer qn1 tn2 "g" = .err .alreadyExists ∧
    fetchTask (removeTask wServer tn1) tn1 = some none ∧
    fetchTask (hardDeleteTask wServer tn2) tn2 = none :=
  ⟨(task_names_reserved_until_hard_reset wServer qn1 tn1 "g" wQueue).1
      (by decide) (by decide) (by decide) (by decide) (by decide),
   (task_names_reserved_until_hard_reset wServer qn1 tn2 "g" wQueue).1
      (by decide) (by decide) (by decide) (by decide) (by decide),
   (task_names_reserved_until_hard_reset wServer qn1 tn1 "g" wQueue).2.2.1,
   (task_names_reserved_until_hard_reset wServer qn1 tn2 "g" wQueue).2.2.2.2⟩

/-- A queue name that violates the spec's ANCHORED regex (leading '!') but
contains the pattern as a substring. -/
def c7Name : String := "!projects/a/locations/b/queues/c"

/-- The matching parent for `c7Name`. -/
def c7Parent : String := "projects/a/locations/b"

/-- The server produced by creating `c7Name` on a fresh server. -/
def c7After : Server :=
  match CreateQueue NewServer c7Parent c7Name with
  | .ok (_, s) => s
  | _ => NewServer

/-- C7 counterexample: `c7Name` fails the anchored regex of the spec, yet
CreateQueue ACCEPTS it (Go's `regexp.MatchString` is unanchored and finds the
pattern at offset 1) and installs a queue under that name. -/
theorem createQueue_anchoring_counterexample :
    queueNameAnchored c7Name = false ∧
    (CreateQueue NewServer c7Parent c7Name).isErr = false ∧
    (CreateQueue NewServer c7Parent c7Name).isOk = true ∧
    (fetchQueue c7After c7Name).isSome = true := by
  refine ⟨by decide, by decide, by decide, by decide⟩

/-- C7 amended: CreateQueue validates with UNANCHORED matches — it returns
InvalidArgument exactly when the queue-name pattern occurs nowhere in the
name (or the parent pattern nowhere in the parent), and installs the queue
otherwise (when the name is unused); names with extra characters around an
occurrence of the pattern are accepted.  Every name matching the spec's
anchored regex also matches unanchored, so no spec-valid name is rejected. -/
theorem createQueue_unanchored_validation (s : Server) (parent name : String) :
    (queueNameMatched name = false → CreateQueue s parent name = .err .invalidArgument) ∧
    (queueNameMatched name = true → parentMatched parent = false →
      CreateQueue s parent name = .err .invalidArgument) ∧
    (queueNameMatched name = true → parentMatched parent = true → fetchQueue s name = none →
      CreateQueue s parent name =
        .ok ({ name := name, qstate := QState.running },
          setQueue s name
            (some { state := { name := name, qstate := QState.running }, ts := [] })) ∧
      fetchQueue (setQueue s name
          (some { state := { name := name, qstate := QState.running }, ts := [] })) name =
        some (some { state := { name := name, qstate := QState.running }, ts := [] })) ∧
    (queueNameAnchored name = true → queueNameMatched name = true) := by
  refine ⟨fun h => ?_, fun h1 h2 => ?_, fun h1 h2 h3 => ⟨?_, ?_⟩, fun h => ?_⟩
  · simp [CreateQueue, h]
  · simp [CreateQueue, h1, h2]
  · simp [CreateQueue, h1, h2, h3]
  · simp [fetchQueue, setQueue, lookupMap_insertMap_self]
  · have hmem : name.data ∈ name.data.tails :=
      (List.mem_tails name.data name.data).mpr (List.suffix_refl _)
    have h2 : chompQueuePat name.data = some [] := by
      rw [queueNameAnchored, beq_iff_eq] at h
      exact h
    have hsome : (chompQueuePat name.data).isSome = true := by simp [h2]
    exact List.any_eq_true.mpr ⟨name.data, hmem, hsome⟩

/-- C7 amended witness: the dichotomy at concrete inputs — a name with no
occurrence of the pattern is rejected; `c7Name` (pattern at offset 1) is
accepted and installed on a fresh server. -/
theorem createQueue_unanchored_validation_witness :
    CreateQueue NewServer c7Parent "not-a-queue-name" = .err .invalidArgument ∧
    (CreateQueue NewServer c7Parent c7Name).isOk = true :=
  ⟨(createQueue_unanchored_validation NewServer c7Parent "not-a-queue-name").1 (by decide),
   by
    have h := ((createQueue_unanchored_validation NewServer c7Parent c7Name).2.2.1
      (by decide) (by decide) (by decide)).1
    rw [h]
    rfl⟩

theorem getD_set_self {α : Type} (l : List α) (r : Nat) (v d : α) (h : r < l.length) :
    (l.set r v).getD r d = v := by
  induction l generalizing r with
  | nil => simp at h
  | cons a t ih =>
    cases r with
    | zero => rfl
    | succ m =>
      simp only [List.length_cons, Nat.succ_lt_succ_iff] at h
      simpa [List.set, List.getD] using ih m h

/-- The pointer snapshot matching `wServer`: the state message of the live
task `tn1` lives at heap address 0, and the server's task map stores that
address. -/
def c8Server : HServer := { heap := [wTask.state], hts := [(tn1, some 0)] }

/-- C8 counterexample: GetTask on the live task returns heap reference 0 —
the very object the registry holds, not a clone — so after the dispatcher
increments the attempt counter in place, the value previously returned to
the RPC caller has changed. -/
theorem getTask_no_clone_counterexample :
    getTaskPtr c8Server tn1 = .ok 0 ∧
    heapRead c8Server.heap 0 = { name := tn1, dispatchCount := 0 } ∧
    heapRead (bumpDispatch c8Server 0).heap 0 ≠ { name := tn1, dispatchCount := 0 } ∧
    heapRead (bumpDispatch c8Server 0).heap 0 = { name := tn1, dispatchCount := 1 } := by
  refine ⟨rfl, rfl, by decide, rfl⟩

/-- C8 amended: `GetTask` returns the internal state object itself (the ok
branch of emulator.go:295 is `return task.state` with no `proto.Clone`), so
the pointer handed to the RPC layer is exactly the one stored in the
registry, and an internal counter mutation at that address is visible
through any previously returned reference.  (CreateQueue does clone, but it
clones the incoming request message, emulator.go:144 — not the values later
read back.) -/
theorem getTask_returns_internal_pointer (s : HServer) (n : String) (r : Nat) :
    (getTaskPtr s n = .ok r → lookupMap s.hts n = some (some r)) ∧
    (r < s.heap.length →
      heapRead (bumpDispatch s r).heap r =
        { heapRead s.heap r with dispatchCount := (heapRead s.heap r).dispatchCount + 1 }) := by
  constructor
  · intro h
    cases hx : lookupMap s.hts n with
    | none => simp [getTaskPtr, hx] at h
    | some o =>
      cases o with
      | none => simp [getTaskPtr, hx] at h
      | some r' =>
        simp only [getTaskPtr, hx, GoResult.ok.injEq] at h
        rw [h]
  · intro h
    exact getD_set_self s.heap r _ _ h

/-- C8 amended witness: the aliasing law applied at the concrete pointer
snapshot `c8Server`. -/
theorem getTask_returns_internal_pointer_witness :
    lookupMap c8Server.hts tn1 = some (some 0) ∧
    heapRead (bumpDispatch c8Server 0).heap 0 =
      { heapRead c8Server.heap 0 with
        dispatchCount := (heapRead c8Server.heap 0).dispatchCount + 1 } :=
  ⟨(getTask_returns_internal_pointer c8Server tn1 0).1 (by decide),
   (getTask_returns_internal_pointer c8Server tn1 0).2 (by decide)⟩

/-- A server with one live queue (`qn1`) holding no tasks. -/
def c5Server : Server :=
  { qs := [(qn1, some { state := { name := qn1, qstate := QState.running }, ts := [] })]
    ts := []
    hardResetOnPurge := false }

/-- C5 counterexample: "1" is an ascii decimal number but not an offset into
the empty task list of the queue; the claim says InvalidArgument, but the
code parses it fine and then panics evaluating `l = l[start:]` with
`start = 1 > len(l) = 0` — no error is returned. -/
theorem listTasks_token_counterexample :
    goAtoi "1" = some 1 ∧
    ListTasks c5Server qn1 "1" 0 = .crash ∧
    (ListTasks c5Server qn1 "1" 0).isErr = false := by
  refine ⟨by decide, by decide, by decide⟩

/-- C5 amended: on a live queue, PageSize 0 behaves as the default 1000 and
PageSize < 0 or > 1000 yields InvalidArgument; PageToken "" starts at offset
0 (same result as token "0"); a PageToken that `strconv.Atoi` cannot parse
yields InvalidArgument; but a PageToken that parses to an integer outside
[0, number of live tasks] does NOT yield InvalidArgument — Go panics on the
out-of-bounds slice `l[start:]` (and this happens before PageSize is even
validated). -/
theorem listTasks_pagination_validation (s : Server) (parent : String) (q : Queue)
    (tok : String) (ps : Int) (k : Int)
    (hq : fetchQueue s parent = some (some q)) :
    (ListTasks s parent "" ps = ListTasks s parent (itoa 0) ps) ∧
    (tok ≠ "" → goAtoi tok = none → ListTasks s parent tok ps = .err .invalidArgument) ∧
    (ps < 0 → ListTasks s parent "" ps = .err .invalidArgument) ∧
    (1000 < ps → ListTasks s parent "" ps = .err .invalidArgument) ∧
    (ListTasks s parent "" 0 = ListTasks s parent "" 1000) ∧
    (goAtoi tok = some k → ¬ (0 ≤ k ∧ k.toNat ≤ (sortedStates q).length) →
      ListTasks s parent tok ps = .crash) := by
  have h0 : goAtoi (itoa 0) = some ((0 : Nat) : Int) := goAtoi_itoa 0 (by decide)
  refine ⟨?_, fun hne hn => ?_, fun hps => ?_, fun hps => ?_, ?_, fun hk hb => ?_⟩
  · simp [ListTasks, hq, itoa_ne_empty 0, h0]
  · simp [ListTasks, hq, hne, hn]
  · have : ¬ ((0 : Int) < 0) := by decide
    simp [ListTasks, hq, hps, Int.toNat_zero, Nat.zero_le]
  · have h1 : ¬ (ps < 0) := by omega
    have h2 : ¬ (ps = 0) := by omega
    simp [ListTasks, hq, hps, h1, h2, Int.toNat_zero, Nat.zero_le]
  · simp only [ListTasks, hq, if_pos rfl]
    norm_num
    rfl
  · have hne : tok ≠ "" := by
      intro he
      rw [he] at hk
      simp [goAtoi] at hk
    simp only [ListTasks, hq, if_neg hne, hk]
    rw [if_neg hb]

/-- C5 amended witness: the laws at a concrete live queue: PageSize -1 and
1001 rejected, PageSize 0 behaves as 1000, token "foo" rejected, token "1"
(out of range for the empty list) crashes. -/
theorem listTasks_pagination_validation_witness :
    ListTasks c5Server qn1 "" (-1) = .err .invalidArgument ∧
    ListTasks c5Server qn1 "" 1001 = .err .invalidArgument ∧
    ListTasks c5Server qn1 "" 0 = ListTasks c5Server qn1 "" 1000 ∧
    ListTasks c5Server qn1 "foo" 10 = .err .invalidArgument ∧
    ListTasks c5Server qn1 "1" 10 = .crash :=
  have h := fun tok ps k =>
    listTasks_pagination_validation c5Server qn1
      { state := { name := qn1, qstate := QState.running }, ts := [] } tok ps k (by decide)
  ⟨(h "" (-1) 0).2.2.1 (by decide),
   (h "" 1001 0).2.2.2.1 (by decide),
   (h "" 0 0).2.2.2.2.1,
   (h "foo" 10 0).2.1 (by decide) (by decide),
   (h "1" 10 1).2.2.2.2.2 (by decide) (by decide)⟩

/-- Helper: the empty page token behaves exactly like the token "0". -/
theorem listTasks_empty_token (s : Server) (parent : String) (q : Queue) (ps : Int)
    (hq : fetchQueue s parent = some (some q)) :
    ListTasks s parent "" ps = ListTasks s parent (itoa 0) ps := by
  simp [ListTasks, hq, itoa_ne_empty 0, goAtoi_itoa 0 (by decide)]

/-- Helper: the page `ListTasks` returns at a resolved offset `k` (reached
with the empty token when `k = 0`, or with a token that parses to `k`): the
slice `drop k |>.take pageSize` of the sorted snapshot, with the numeric next
offset as token unless this page exhausts the list. -/
theorem listTasks_at_offset (s : Server) (parent : String) (q : Queue) (ps : Int)
    (tok : String) (k : Nat)
    (hq : fetchQueue s parent = some (some q))
    (hps1 : 1 ≤ ps) (hps2 : ps ≤ 1000)
    (htok : (tok = "" ∧ k = 0) ∨ goAtoi tok = some ((k : Nat) : Int))
    (hk : k ≤ (sortedStates q).length) :
    ListTasks s parent tok ps =
      .ok (((sortedStates q).drop k).take ps.toNat,
        if k + ps.toNat < (sortedStates q).length then itoa (k + ps.toNat) else "") := by
  have h1 : ¬ (ps < 0) := by omega
  have h2 : ¬ (ps = 0) := by omega
  have h3 : ¬ (1000 < ps) := by omega
  have hred : ListTasks s parent tok ps =
      (if 0 ≤ ((k : Nat) : Int) ∧ ((k : Nat) : Int).toNat ≤ (sortedStates q).length then
        (if ps < 0 then .err .invalidArgument
          else if ps = 0 then
            .ok (pageOut ((sortedStates q).drop ((k : Nat) : Int).toNat) ((k : Nat) : Int).toNat 1000)
          else if 1000 < ps then .err .invalidArgument
          else .ok (pageOut ((sortedStates q).drop ((k : Nat) : Int).toNat)
            ((k : Nat) : Int).toNat ps.toNat))
        else .crash) := by
    rcases htok with ⟨he, hk0⟩ | hg
    · subst he
      subst hk0
      rw [listTasks_empty_token s parent q ps hq]
      simp only [ListTasks, hq, if_neg (itoa_ne_empty 0), goAtoi_itoa 0 (by decide)]
    · have hne : tok ≠ "" := by
        intro he
        rw [he] at hg
        simp [goAtoi] at hg
      simp only [ListTasks, hq, if_neg hne, hg]
  rw [hred]
  have hb : 0 ≤ ((k : Nat) : Int) ∧ ((k : Nat) : Int).toNat ≤ (sortedStates q).length := by
    constructor
    · omega
    · omega
  rw [if_pos hb, if_neg h1, if_neg h2, if_neg h3]
  have htn : ((k : Nat) : Int).toNat = k := by omega
  rw [htn, pageOut]
  rw [List.length_drop]
  by_cases hc : k + ps.toNat < (sortedStates q).length
  · have hlt : ps.toNat < (sortedStates q).length - k := by omega
    rw [if_pos hlt, if_pos hc]
  · have hge : ¬ (ps.toNat < (sortedStates q).length - k) := by omega
    rw [if_neg hge, if_neg hc]
    have hall : ((sortedStates q).drop k).take ps.toNat = (sortedStates q).drop k := by
      apply List.take_of_length_le
      rw [List.length_drop]
      omega
    rw [hall]

/-- Helper: following next-page tokens from offset `k` with enough fuel
concatenates exactly the rest of the sorted snapshot. -/
theorem drainPages_collects (s : Server) (parent : String) (q : Queue) (ps : Int)
    (hq : fetchQueue s parent = some (some q)) (hps1 : 1 ≤ ps) (hps2 : ps ≤ 1000)
    (hL : (sortedStates q).length + 1000 ≤ int64Max) :
    ∀ fuel k tok, k ≤ (sortedStates q).length →
      (sortedStates q).length ≤ k + (fuel + 1) * ps.toNat →
      ((tok = "" ∧ k = 0) ∨ goAtoi tok = some ((k : Nat) : Int)) →
      drainPages s parent ps (fuel + 1) tok = some ((sortedStates q).drop k) := by
  have hmax : int64Max = 9223372036854775807 := rfl
  intro fuel
  induction fuel with
  | zero =>
    intro k tok hk hb htok
    have hnc : ¬ (k + ps.toNat < (sortedStates q).length) := by omega
    rw [drainPages, listTasks_at_offset s parent q ps tok k hq hps1 hps2 htok hk,
      if_neg hnc]
    have hall : ((sortedStates q).drop k).take ps.toNat = (sortedStates q).drop k := by
      apply List.take_of_length_le
      rw [List.length_drop]
      omega
    simp [hall]
  | succ f ih =>
    intro k tok hk hb htok
    rw [drainPages, listTasks_at_offset s parent q ps tok k hq hps1 hps2 htok hk]
    by_cases hc : k + ps.toNat < (sortedStates q).length
    · rw [if_pos hc]
      have hne : ¬ (itoa (k + ps.toNat) = "") := itoa_ne_empty _
      have hrec : drainPages s parent ps (f + 1) (itoa (k + ps.toNat)) =
          some ((sortedStates q).drop (k + ps.toNat)) := by
        apply ih (k + ps.toNat) (itoa (k + ps.toNat)) (by omega)
        · have hmul : (f + 1 + 1) * ps.toNat = (f + 1) * ps.toNat + ps.toNat :=
            Nat.succ_mul _ _
          rw [hmul] at hb
          omega
        · right
          rw [goAtoi_itoa (k + ps.toNat) (by omega)]
      have hjoin : List.take ps.toNat (List.drop k (sortedStates q)) ++
          List.drop (k + ps.toNat) (sortedStates q) = List.drop k (sortedStates q) := by
        rw [← List.drop_drop ps.toNat k (sortedStates q)]
        exact List.take_append_drop ps.toNat ((sortedStates q).drop k)
      simp [hne, hrec, hjoin]
    · rw [if_neg hc]
      have hall : ((sortedStates q).drop k).take ps.toNat = (sortedStates q).drop k := by
        apply List.take_of_length_le
        rw [List.length_drop]
        omega
      simp [hall]

/-- C4: for a live queue and a valid page size (1..1000, with the registry
small enough for Go's 64-bit int offsets): (1) the snapshot `ListTasks` pages
over is a permutation of exactly the queue's live tasks' states, (2) it is
sorted by name ascending, (3) the page at every reachable offset `k` is the
contiguous slice of that snapshot and its next token is empty exactly when
the page is the last one (otherwise the numeric next offset), and (4)
following next-page tokens from the first page concatenates to exactly the
whole snapshot. -/
theorem listTasks_pages (s : Server) (parent : String) (q : Queue) (ps : Int)
    (hq : fetchQueue s parent = some (some q)) (hps1 : 1 ≤ ps) (hps2 : ps ≤ 1000)
    (hL : (sortedStates q).length + 1000 ≤ int64Max) :
    (sortedStates q).Perm ((liveTasks q).map Task.state) ∧
    List.Pairwise (fun a b : TaskState => charListLe a.name.data b.name.data = true)
      (sortedStates q) ∧
    (∀ k, k ≤ (sortedStates q).length →
      ListTasks s parent (itoa k) ps =
        .ok (((sortedStates q).drop k).take ps.toNat,
          if k + ps.toNat < (sortedStates q).length then itoa (k + ps.toNat) else "")) ∧
    drainPages s parent ps ((sortedStates q).length + 1) "" = some (sortedStates q) := by
  have hmax : int64Max = 9223372036854775807 := rfl
  refine ⟨?_, ?_, fun k hk => ?_, ?_⟩
  · exact List.Perm.map Task.state (List.perm_insertionSort taskNameLe (liveTasks q))
  · rw [sortedStates, List.pairwise_map]
    exact List.sorted_insertionSort taskNameLe (liveTasks q)
  · exact listTasks_at_offset s parent q ps (itoa k) k hq hps1 hps2
      (Or.inr (by rw [goAtoi_itoa k (by omega)])) hk
  · have hdrop := drainPages_collects s parent q ps hq hps1 hps2 hL
      (sortedStates q).length 0 "" (Nat.zero_le _) ?_ (Or.inl ⟨rfl, rfl⟩)
    · rw [hdrop, List.drop_zero]
    · have hmul : ((sortedStates q).length + 1) * 1 ≤
          ((sortedStates q).length + 1) * ps.toNat := by
        apply Nat.mul_le_mul_left
        omega
      omega

/-- A server with one live queue holding three live tasks (installed out of
name order) and one nil entry in the queue's own task map. -/
def c4Server : Server :=
  { qs := [(qn1, some
      { state := { name := qn1, qstate := QState.running }
        ts := [("projects/p/locations/l/queues/q/tasks/c",
                 some { state := { name := "projects/p/locations/l/queues/q/tasks/c",
                                   dispatchCount := 0 } }),
               ("projects/p/locations/l/queues/q/tasks/a",
                 some { state := { name := "projects/p/locations/l/queues/q/tasks/a",
                                   dispatchCount := 0 } }),
               ("projects/p/locations/l/queues/q/tasks/gone", none),
               ("projects/p/locations/l/queues/q/tasks/b",
                 some { state := { name := "projects/p/locations/l/queues/q/tasks/b",
                                   dispatchCount := 0 } })] })]
    ts := []
    hardResetOnPurge := false }

/-- The live queue stored in `c4Server`. -/
def c4Queue : Queue :=
  { state := { name := qn1, qstate := QState.running }
    ts := [("projects/p/locations/l/queues/q/tasks/c",
             some { state := { name := "projects/p/locations/l/queues/q/tasks/c",
                               dispatchCount := 0 } }),
           ("projects/p/locations/l/queues/q/tasks/a",
             some { state := { name := "projects/p/locations/l/queues/q/tasks/a",
                               dispatchCount := 0 } }),
           ("projects/p/locations/l/queues/q/tasks/gone", none),
           ("projects/p/locations/l/queues/q/tasks/b",
             some { state := { name := "projects/p/locations/l/queues/q/tasks/b",
                               dispatchCount := 0 } })] }

/-- C4 witness: the paging laws applied to the concrete three-task queue of
`c4Server` with page size 2. -/
theorem listTasks_pages_witness :
    fetchQueue c4Server qn1 = some (some c4Queue) ∧
    ((sortedStates c4Queue).Perm ((liveTasks c4Queue).map Task.state) ∧
      List.Pairwise (fun a b : TaskState => charListLe a.name.data b.name.data = true)
        (sortedStates c4Queue) ∧
      (∀ k, k ≤ (sortedStates c4Queue).length →
        ListTasks c4Server qn1 (itoa k) 2 =
          .ok (((sortedStates c4Queue).drop k).take (2 : Int).toNat,
            if k + (2 : Int).toNat < (sortedStates c4Queue).length
              then itoa (k + (2 : Int).toNat) else "")) ∧
      drainPages c4Server qn1 2 ((sortedStates c4Queue).length + 1) "" =
        some (sortedStates c4Queue)) :=
  ⟨by decide,
   listTasks_pages c4Server qn1 c4Queue 2 (by decide) (by decide) (by decide) (by decide)⟩

end CTE
